import Mathlib

/-!
Verification of the rust_os kernel core (src/kernel): shallow embedding of
`os_config.rs`, `os.rs` and `systick.rs`, together with theorems checking the
natural-language specification against it.

Machine integers are modelled as `Nat` with explicit bounds or `% 2^w` where
wrap-around matters.  Raw stack memory is modelled as a word map
`Nat → Nat` from byte addresses to 32-bit words, updated pointwise.
-/

namespace RustOS

/-! ## os_config.rs -/

/-- `pub const KERNEL_TICK_PERIOD_MS: u32 = 1;` -/
def KERNEL_TICK_PERIOD_MS : Nat := 1

/-- `pub const MAX_TASK: usize = 4;` -/
def MAX_TASK : Nat := 4

/-- `pub const SIZE_TASK_STACK: u32 = 1024;` -/
def SIZE_TASK_STACK : Nat := 1024

/-- `pub const SIZE_SCHEDULER_STACK: u32 = 1024;` -/
def SIZE_SCHEDULER_STACK : Nat := 1024

/-- `pub const SRAM_START: u32 = 0x2000_0000;` -/
def SRAM_START : Nat := 0x20000000

/-- `pub const SRAM_SIZE: u32 = 128 * 1024;` -/
def SRAM_SIZE : Nat := 128 * 1024

/-- `pub const SRAM_END: u32 = SRAM_START + SRAM_SIZE;` -/
def SRAM_END : Nat := SRAM_START + SRAM_SIZE

/-- `pub const TASK_READY_STATE: u8 = 0x00;` -/
def TASK_READY_STATE : Nat := 0x00

/-- `pub const TASK_BLOCKED_STATE: u8 = 0xFF;` -/
def TASK_BLOCKED_STATE : Nat := 0xFF

/-- `pub const DUMMY_XPSR: u32 = 0x0100_0000;` -/
def DUMMY_XPSR : Nat := 0x01000000

/-- `pub const fn task_stack_start(i: usize) -> u32 { SRAM_END - (i as u32 * SIZE_TASK_STACK) }` -/
def task_stack_start (i : Nat) : Nat := SRAM_END - i * SIZE_TASK_STACK

/-- `pub const fn scheduler_stack_start() -> u32 { SRAM_END - (MAX_TASK as u32 * SIZE_TASK_STACK) }` -/
def scheduler_stack_start : Nat := SRAM_END - MAX_TASK * SIZE_TASK_STACK

/-- Task Control Block, `struct Tcb` from os_config.rs.  `psp_value` is a `u32`
address word; `priority`, `current_state` and `block_count` are `u8` values
(modelled as `Nat`, bounded by hypotheses where it matters); `task_handler` is
a function pointer, modelled by its address. -/
structure Tcb where
  psp_value : Nat
  priority : Nat
  current_state : Nat
  block_count : Nat
  task_handler : Nat
deriving DecidableEq

/-- The static task table `TASKS` exactly as initialized in os_config.rs,
parameterized by the (link-time) entry addresses of `Idle_task_handler`,
`task1_handler`, `task2_handler`, `task3_handler`. -/
def TASKS_init (entry : Fin MAX_TASK → Nat) : Fin MAX_TASK → Tcb := fun i =>
  match i.val with
  | 0 => { psp_value := 0, priority := 0, current_state := TASK_READY_STATE,
           block_count := 0, task_handler := entry ⟨0, by decide⟩ }
  | 1 => { psp_value := 0, priority := 3, current_state := TASK_READY_STATE,
           block_count := 0, task_handler := entry ⟨1, by decide⟩ }
  | 2 => { psp_value := 0, priority := 3, current_state := TASK_READY_STATE,
           block_count := 0, task_handler := entry ⟨2, by decide⟩ }
  | _ => { psp_value := 0, priority := 4, current_state := TASK_READY_STATE,
           block_count := 0, task_handler := entry ⟨3, by decide⟩ }

/-! ## os.rs: scheduler policy (`update_to_next_task`) -/

/-- `usize::MAX`, the initial value of `best` in `update_to_next_task`
(equal to `2 ^ 64 - 1`). -/
def USIZE_MAX : Nat := 18446744073709551615

/-- One iteration of the scan loop of `update_to_next_task`: state is the
pair `(next, best)`; slot `i` is taken iff it is non-idle, READY, and its
priority (cast `u8 as usize`) is strictly below the best seen so far. -/
def pickStep (tasks : Fin MAX_TASK → Tcb) (s : Nat × Nat) (i : Fin MAX_TASK) : Nat × Nat :=
  if i.val ≠ 0 ∧ (tasks i).current_state = TASK_READY_STATE ∧ (tasks i).priority < s.2 then
    (i.val, (tasks i).priority)
  else s

/-- The sequence of indices visited by the loop of `update_to_next_task`:
`i` starts at `(cur + 1) % n` and is stepped by `i = (i + 1) % n` for
`n - 1` iterations, i.e. index `(cur + 1 + j) % n` at iteration `j`. -/
def scanOrder (cur : Nat) : List (Fin MAX_TASK) :=
  (List.range (MAX_TASK - 1)).map fun j =>
    ⟨(cur + 1 + j) % MAX_TASK, Nat.mod_lt _ (by decide)⟩

/-- `update_to_next_task` from os.rs: single pass over the `n - 1` slots after
`cur`, returning the first READY non-idle task with the lowest priority seen,
with fallback `0` (idle).  Returns the new value of `CURRENT_TASK_IDX`. -/
def update_to_next_task (tasks : Fin MAX_TASK → Tcb) (cur : Nat) : Nat :=
  ((scanOrder cur).foldl (pickStep tasks) (0, USIZE_MAX)).1

/-- A non-idle slot whose state is READY ("among those whose state is READY"
over "the `N − 1` non-idle slots"). -/
def readyNonIdle (tasks : Fin MAX_TASK → Tcb) (i : Fin MAX_TASK) : Prop :=
  i.val ≠ 0 ∧ (tasks i).current_state = TASK_READY_STATE

instance (tasks : Fin MAX_TASK → Tcb) (i : Fin MAX_TASK) :
    Decidable (readyNonIdle tasks i) := by
  unfold readyNonIdle; infer_instance

/-- Modelled from the spec's words (§4.4, Priority mode), for comparison with
`update_to_next_task`: "starting from `(current + 1) mod N`, scan the `N − 1`
non-idle slots; among those whose state is READY, select the one with the
*lowest* `priority` value. Tie-break: the first such task encountered in the
scan order. If none found, return 0 (idle)." -/
def specPick (tasks : Fin MAX_TASK → Tcb) (cur : Nat) : Nat :=
  let cands := (scanOrder cur).filter fun i => decide (readyNonIdle tasks i)
  match cands.find? (fun i =>
      decide (∀ j ∈ cands, (tasks i).priority ≤ (tasks j).priority)) with
  | some i => i.val
  | none => 0

/-- Iterated selection: `pickSeq e 0 = 0` (start at task 0) and each later
value is what `update_to_next_task` commits on the table `TASKS_init e`
(whose states never change: nothing in the kernel writes `current_state`). -/
def pickSeq (e : Fin MAX_TASK → Nat) : Nat → Nat
  | 0 => 0
  | k + 1 => update_to_next_task (TASKS_init e) (pickSeq e k)

/-- Concrete placeholder entry addresses for closed (counter)examples. -/
def entry0 : Fin MAX_TASK → Nat := fun _ => 0

/-- Proof-bridge function: the first element of the list, among the READY
non-idle ones with priority strictly below `b`, having the least priority
(strict later improvement, so ties go to the earlier element).  This mirrors
the accumulator discipline of the scan loop. -/
def firstMinBelow (tasks : Fin MAX_TASK → Tcb) (b : Nat) :
    List (Fin MAX_TASK) → Option (Fin MAX_TASK)
  | [] => none
  | i :: L =>
    if readyNonIdle tasks i ∧ (tasks i).priority < b then
      match firstMinBelow tasks ((tasks i).priority) L with
      | none => some i
      | some j => some j
    else firstMinBelow tasks b L

/-- Proof-bridge function: the first element of least priority in a list
(of already-filtered candidates). -/
def firstMinList (tasks : Fin MAX_TASK → Tcb) :
    List (Fin MAX_TASK) → Option (Fin MAX_TASK)
  | [] => none
  | i :: L =>
    match firstMinList tasks L with
    | none => some i
    | some j => if (tasks j).priority < (tasks i).priority then some j else some i

/-! ## os.rs: stack initialization (`init_task_stack`) -/

/-- A single `p.write_volatile(v)` into the word map. -/
def writeWord (m : Nat → Nat) (addr v : Nat) : Nat → Nat :=
  fun a => if a = addr then v else m a

/-- The body of `init_task_stack` for one task: starting from
`p = task_stack_start i`, each write is preceded by `p = p.offset(-1)`
(4 bytes down), so the 16 words land at `top - 4, top - 8, …, top - 64`:
`DUMMY_XPSR`, the task entry (PC), `0xFFFFFFFD` (LR), five zero words
(R12, R3, R2, R1, R0 — the source's `for _ in 0..5` loop, unrolled here),
and eight zero words (R11 down to R4 — the `for _ in 0..8` loop, unrolled).
Returns the final memory and the final `p` (saved as `psp_value`). -/
def initFrame (handler top : Nat) (m : Nat → Nat) : (Nat → Nat) × Nat :=
  let m := writeWord m (top - 4) DUMMY_XPSR
  let m := writeWord m (top - 8) handler
  let m := writeWord m (top - 12) 0xFFFFFFFD
  let m := writeWord m (top - 16) 0
  let m := writeWord m (top - 20) 0
  let m := writeWord m (top - 24) 0
  let m := writeWord m (top - 28) 0
  let m := writeWord m (top - 32) 0
  let m := writeWord m (top - 36) 0
  let m := writeWord m (top - 40) 0
  let m := writeWord m (top - 44) 0
  let m := writeWord m (top - 48) 0
  let m := writeWord m (top - 52) 0
  let m := writeWord m (top - 56) 0
  let m := writeWord m (top - 60) 0
  let m := writeWord m (top - 64) 0
  (m, top - 64)

/-- `init_task_stack` from os.rs: for each `i in 0..MAX_TASK`, write the
16-word synthetic frame into task `i`'s stack region and store the final
pointer into `TASKS[i].psp_value`.  Returns the updated table and memory. -/
def init_task_stack (tasks0 : Fin MAX_TASK → Tcb) (m0 : Nat → Nat) :
    (Fin MAX_TASK → Tcb) × (Nat → Nat) :=
  (List.finRange MAX_TASK).foldl
    (fun s i =>
      let r := initFrame ((s.1 i).task_handler) (task_stack_start i.val) s.2
      (Function.update s.1 i { s.1 i with psp_value := r.2 }, r.1))
    (tasks0, m0)

/-! ## systick.rs -/

/-- `SYSTICK_RVR_MAX` (the timer's 24-bit range). -/
def SYSTICK_RVR_MAX : Nat := 0x00FFFFFF

/-- Final contents of the three SysTick registers after a configuration call. -/
structure SysTickRegs where
  st_csr : Nat
  st_rvr : Nat
  st_cvr : Nat
deriving DecidableEq

/-- `configure_interrupt_ticks` from systick.rs: writes
`st_rvr = (ticks - 1) & SYSTICK_RVR_MAX`, clears `st_cvr`, and sets
ENABLE | TICKINT | CLKSOURCE in `st_csr`.  There is no overflow check:
the reload value is silently bit-masked to 24 bits. -/
def configure_interrupt_ticks (ticks : Nat) : SysTickRegs :=
  { st_csr := (1 <<< 0) ||| (1 <<< 2) ||| (1 <<< 1)
    st_rvr := (ticks - 1) &&& SYSTICK_RVR_MAX
    st_cvr := 0 }

/-- `init_systic_interrupt_ms`: `ticks = core_clk_mhz * 1_000 * interval_ms`
as a `u32` product (wrap-around modelled by `% 2^32`). -/
def init_systic_interrupt_ms (interval_ms core_clk_mhz : Nat) : SysTickRegs :=
  configure_interrupt_ticks ((core_clk_mhz * 1000 * interval_ms) % 2 ^ 32)

/-! ## os.rs: scheduler_init, SysTick exception, PSP helpers -/

/-- `pub const CORE_CLOCK_MHZ: u32 = 16;` -/
def CORE_CLOCK_MHZ : Nat := 16

/-- `static mut CURRENT_TASK_IDX: usize = 1;` -/
def CURRENT_TASK_IDX_INIT : Nat := 1

/-- The read-modify-write of `SHPR3` performed by `scheduler_init`:
`v &= !((0xFF << 16) | (0xFF << 24))` (on `u32` this is `v &&& 0x0000FFFF`),
then `v |= (0xFF << 16) | (0xF0 << 24)` (i.e. `v ||| 0xF0FF0000`). -/
def shpr3_after (v : Nat) : Nat :=
  (v &&& 0x0000FFFF) ||| ((0xFF <<< 16) ||| (0xF0 <<< 24))

/-- Result of `scheduler_init`, given the entry addresses, the prior SHPR3
register contents and the prior stack memory: the programmed SHPR3, the task
table and stack memory after `init_task_stack`, the SysTick registers, and the
index/entry of the task branched to.  The call `update_to_next_task()` is
commented out in the source, so the branch target is
`TASKS[CURRENT_TASK_IDX].task_handler` with the static initial index. -/
structure BootResult where
  shpr3 : Nat
  tasks : Fin MAX_TASK → Tcb
  mem : Nat → Nat
  systick : SysTickRegs
  firstIdx : Nat
  firstEntry : Nat

/-- `scheduler_init` from os.rs (the parts visible to Rust: the assembly
trampolines `init_scheduler_stack` / `switch_sp_to_psp` only move stack
pointers and are not modelled). -/
def scheduler_init (e : Fin MAX_TASK → Nat) (shpr3₀ : Nat) (m0 : Nat → Nat) :
    BootResult :=
  let shpr3 := shpr3_after shpr3₀
  let r := init_task_stack (TASKS_init e) m0
  let st := init_systic_interrupt_ms KERNEL_TICK_PERIOD_MS CORE_CLOCK_MHZ
  let idx := CURRENT_TASK_IDX_INIT
  { shpr3 := shpr3, tasks := r.1, mem := r.2, systick := st,
    firstIdx := idx, firstEntry := (r.1 ⟨idx, by decide⟩).task_handler }

/-- Kernel state visible to the `SysTick` exception handler and the PSP
helpers: the task table, `CURRENT_TASK_IDX`, `GLOBAL_TICK_COUNT`, the
PendSV-pending bit of `SCB_ICSR`, and raw task stack memory. -/
structure KState where
  tasks : Fin MAX_TASK → Tcb
  currentTaskIdx : Fin MAX_TASK
  globalTickCount : Nat
  icsrPendSVSet : Bool
  mem : Nat → Nat

/-- `schedule()` from os.rs: write `1 << 28` to `SCB_ICSR`, i.e. set the
PendSV pending bit. -/
def schedule (s : KState) : KState := { s with icsrPendSVSet := true }

/-- The `SysTick` exception handler from os.rs:
`GLOBAL_TICK_COUNT = GLOBAL_TICK_COUNT.wrapping_add(1)` followed by
`schedule()` (the blocked-task wake-up scan is commented out). -/
def sysTickException (s : KState) : KState :=
  schedule { s with globalTickCount := (s.globalTickCount + 1) % 2 ^ 32 }

/-- `get_psp_value()` from os.rs. -/
def get_psp_value (s : KState) : Nat := (s.tasks s.currentTaskIdx).psp_value

/-- `save_psp_value(psp)` from os.rs. -/
def save_psp_value (psp : Nat) (s : KState) : KState :=
  { s with
    tasks := Function.update s.tasks s.currentTaskIdx
      ({ s.tasks s.currentTaskIdx with psp_value := psp }) }

/-- The all-zero initial memory used for closed (counter)examples. -/
def zmem : Nat → Nat := fun _ => 0

/-- A concrete kernel state used for witnesses. -/
def state0 : KState :=
  { tasks := TASKS_init entry0, currentTaskIdx := ⟨1, by decide⟩,
    globalTickCount := 0, icsrPendSVSet := false, mem := zmem }

end RustOS

namespace RustOS
/-! ## Helper lemmas about the scheduler policy -/

/-- `pickStep`'s condition, regrouped through `readyNonIdle`. -/
theorem pickStep_eq (tasks : Fin MAX_TASK → Tcb) (s : Nat × Nat) (i : Fin MAX_TASK) :
    pickStep tasks s i
      = if readyNonIdle tasks i ∧ (tasks i).priority < s.2 then
          (i.val, (tasks i).priority)
        else s := by
  simp only [pickStep, readyNonIdle, and_assoc]

/-- The scan loop computes `firstMinBelow` of the visited list. -/
theorem foldl_pickStep_eq (tasks : Fin MAX_TASK → Tcb) (L : List (Fin MAX_TASK)) :
    ∀ nx b : Nat,
      L.foldl (pickStep tasks) (nx, b)
        = match firstMinBelow tasks b L with
          | some i => (i.val, (tasks i).priority)
          | none => (nx, b) := by
  induction L with
  | nil => intro nx b; rfl
  | cons i L ih =>
    intro nx b
    rw [List.foldl_cons, pickStep_eq]
    by_cases h : readyNonIdle tasks i ∧ (tasks i).priority < b
    · rw [if_pos h]
      rw [ih]
      simp only [firstMinBelow, if_pos h]
      cases hm : firstMinBelow tasks ((tasks i).priority) L <;> simp [hm]
    · rw [if_neg h]
      rw [ih]
      simp only [firstMinBelow, if_neg h]

/-- `firstMinBelow` is `firstMinList` on the filtered candidates, cut at `b`. -/
theorem firstMinBelow_eq_bind (tasks : Fin MAX_TASK → Tcb) (L : List (Fin MAX_TASK)) :
    ∀ b : Nat,
      firstMinBelow tasks b L
        = (firstMinList tasks (L.filter fun i => decide (readyNonIdle tasks i))).bind
            (fun j => if (tasks j).priority < b then some j else none) := by
  induction L with
  | nil => intro b; rfl
  | cons i L ih =>
    intro b
    simp only [firstMinBelow, List.filter_cons]
    by_cases hc : readyNonIdle tasks i
    · have hcd : decide (readyNonIdle tasks i) = true := decide_eq_true hc
      rw [if_pos hcd]
      by_cases hb : (tasks i).priority < b
      · rw [if_pos (And.intro hc hb), ih ((tasks i).priority)]
        simp only [firstMinList]
        cases hm : firstMinList tasks (L.filter fun i => decide (readyNonIdle tasks i)) with
        | none => simp [hb]
        | some j =>
          by_cases hji : (tasks j).priority < (tasks i).priority
          · have hjb : (tasks j).priority < b := lt_trans hji hb
            simp [hji, hjb]
          · simp [hji, hb]
      · rw [if_neg (fun hx : _ ∧ _ => hb hx.2), ih b]
        simp only [firstMinList]
        cases hm : firstMinList tasks (L.filter fun i => decide (readyNonIdle tasks i)) with
        | none => simp [hb]
        | some j =>
          by_cases hji : (tasks j).priority < (tasks i).priority
          · simp [hji]
          · have hjb : ¬ (tasks j).priority < b := by omega
            simp [hji, hb, hjb]
    · have hcd : decide (readyNonIdle tasks i) = false := decide_eq_false hc
      rw [if_neg (fun hx : _ ∧ _ => hc hx.1)]
      simp only [hcd, Bool.false_eq_true, if_false]
      exact ih b

/-- `firstMinList` returns `none` only on the empty list. -/
theorem firstMinList_eq_none (tasks : Fin MAX_TASK → Tcb) (D : List (Fin MAX_TASK)) :
    firstMinList tasks D = none ↔ D = [] := by
  cases D with
  | nil => simp [firstMinList]
  | cons i L =>
    simp only [firstMinList]
    cases hm : firstMinList tasks L with
    | none => simp
    | some j => by_cases hji : (tasks j).priority < (tasks i).priority <;> simp [hji]

/-- An element returned by `firstMinList` belongs to the list. -/
theorem firstMinList_mem (tasks : Fin MAX_TASK → Tcb) (D : List (Fin MAX_TASK))
    (j : Fin MAX_TASK) (h : firstMinList tasks D = some j) : j ∈ D := by
  induction D with
  | nil => simp [firstMinList] at h
  | cons i L ih =>
    simp only [firstMinList] at h
    split at h
    · simp at h
      subst h
      exact List.mem_cons_self _ _
    · rename_i m hm
      by_cases hji : (tasks m).priority < (tasks i).priority
      · rw [if_pos hji] at h
        simp at h
        subst h
        exact List.mem_cons_of_mem _ (ih hm)
      · rw [if_neg hji] at h
        simp at h
        subst h
        exact List.mem_cons_self _ _

/-- `firstMinList` returns an element of least priority. -/
theorem firstMinList_min (tasks : Fin MAX_TASK → Tcb) (D : List (Fin MAX_TASK)) :
    ∀ j, firstMinList tasks D = some j →
      ∀ x ∈ D, (tasks j).priority ≤ (tasks x).priority := by
  induction D with
  | nil => intro j h; simp [firstMinList] at h
  | cons i L ih =>
    intro j h
    simp only [firstMinList] at h
    split at h
    · rename_i hm
      simp at h
      subst h
      have hL : L = [] := (firstMinList_eq_none tasks L).mp hm
      subst hL
      intro x hx
      simp at hx
      subst hx
      exact le_refl _
    · rename_i m hm
      have hmin := ih m hm
      by_cases hji : (tasks m).priority < (tasks i).priority
      · rw [if_pos hji] at h
        simp at h
        subst h
        intro x hx
        rcases List.mem_cons.mp hx with hx | hx
        · subst hx; exact le_of_lt hji
        · exact hmin x hx
      · rw [if_neg hji] at h
        simp at h
        subst h
        intro x hx
        rcases List.mem_cons.mp hx with hx | hx
        · subst hx; exact le_refl _
        · exact le_trans (by omega) (hmin x hx)

/-- `firstMinList` returns the *first* element of least priority: everything
before it in the list has strictly larger priority. -/
theorem firstMinList_decomp (tasks : Fin MAX_TASK → Tcb) (D : List (Fin MAX_TASK))
    (j : Fin MAX_TASK) (h : firstMinList tasks D = some j) :
    ∃ as bs, D = as ++ j :: bs ∧ ∀ x ∈ as, (tasks j).priority < (tasks x).priority := by
  induction D with
  | nil => simp [firstMinList] at h
  | cons i L ih =>
    simp only [firstMinList] at h
    split at h
    · simp at h
      subst h
      exact ⟨[], L, rfl, by simp⟩
    · rename_i m hm
      by_cases hji : (tasks m).priority < (tasks i).priority
      · rw [if_pos hji] at h
        simp at h
        subst h
        obtain ⟨as, bs, hsplit, hgt⟩ := ih hm
        refine ⟨i :: as, bs, by simp [hsplit], ?_⟩
        intro x hx
        rcases List.mem_cons.mp hx with hx | hx
        · subst hx; exact hji
        · exact hgt x hx
      · rw [if_neg hji] at h
        simp at h
        subst h
        exact ⟨[], L, rfl, by simp⟩

/-- `find?` on a list split as `as ++ j :: bs`, where the predicate fails on
all of `as` and holds at `j`, returns `j`. -/
theorem find?_first (p : Fin MAX_TASK → Bool) (l as : List (Fin MAX_TASK))
    (j : Fin MAX_TASK) (bs : List (Fin MAX_TASK)) (hsplit : l = as ++ j :: bs)
    (hpj : p j = true) (hpas : ∀ a ∈ as, p a = false) :
    l.find? p = some j := by
  subst hsplit
  induction as with
  | nil => exact List.find?_cons_of_pos _ hpj
  | cons a as ih =>
    rw [List.cons_append, List.find?_cons_of_neg, ih]
    · intro x hx
      exact hpas x (List.mem_cons_of_mem _ hx)
    · simp [hpas a (List.mem_cons_self _ _)]

/-- `specPick` computes the first least-priority candidate. -/
theorem specPick_eq_firstMinList (tasks : Fin MAX_TASK → Tcb) (cur : Nat) :
    specPick tasks cur
      = match firstMinList tasks
            ((scanOrder cur).filter fun i => decide (readyNonIdle tasks i)) with
        | some j => j.val
        | none => 0 := by
  show (match ((scanOrder cur).filter fun i => decide (readyNonIdle tasks i)).find?
          (fun i => decide (∀ j ∈ (scanOrder cur).filter
              fun i => decide (readyNonIdle tasks i),
            (tasks i).priority ≤ (tasks j).priority)) with
        | some i => i.val
        | none => 0) = _
  generalize hD : (scanOrder cur).filter (fun i => decide (readyNonIdle tasks i)) = D
  cases hm : firstMinList tasks D with
  | none =>
    have hempty : D = [] := (firstMinList_eq_none tasks D).mp hm
    subst hempty
    rfl
  | some j =>
    obtain ⟨as, bs, hsplit, hgt⟩ := firstMinList_decomp tasks D j hm
    have hjmem : j ∈ D := by rw [hsplit]; simp
    have hmin := firstMinList_min tasks D j hm
    have hpj : (fun i => decide (∀ x ∈ D, (tasks i).priority ≤ (tasks x).priority)) j
        = true := by
      simp only [decide_eq_true_eq]
      exact hmin
    have hpas : ∀ a ∈ as,
        (fun i => decide (∀ x ∈ D, (tasks i).priority ≤ (tasks x).priority)) a = false := by
      intro a ha
      simp only [decide_eq_false_iff_not]
      intro hall
      have h2 := hall j hjmem
      have h1 := hgt a ha
      omega
    rw [find?_first _ D as j bs hsplit hpj hpas]

/-- `firstMinBelow` only returns READY non-idle members of the list. -/
theorem firstMinBelow_sound (tasks : Fin MAX_TASK → Tcb) (L : List (Fin MAX_TASK)) :
    ∀ b j, firstMinBelow tasks b L = some j → readyNonIdle tasks j ∧ j ∈ L := by
  induction L with
  | nil => intro b j h; simp [firstMinBelow] at h
  | cons i L ih =>
    intro b j h
    simp only [firstMinBelow] at h
    by_cases hc : readyNonIdle tasks i ∧ (tasks i).priority < b
    · rw [if_pos hc] at h
      split at h
      · simp at h
        subst h
        exact ⟨hc.1, List.mem_cons_self _ _⟩
      · rename_i m hm
        simp at h
        subst h
        obtain ⟨h1, h2⟩ := ih _ _ hm
        exact ⟨h1, List.mem_cons_of_mem _ h2⟩
    · rw [if_neg hc] at h
      obtain ⟨h1, h2⟩ := ih _ _ h
      exact ⟨h1, List.mem_cons_of_mem _ h2⟩

/-- The code's scan equals the spec's priority policy (the bound on
`priority` is the `u8` range of the field). -/
theorem pick_eq_spec (tasks : Fin MAX_TASK → Tcb) (cur : Nat)
    (hp : ∀ i, (tasks i).priority < 256) :
    update_to_next_task tasks cur = specPick tasks cur := by
  rw [update_to_next_task, foldl_pickStep_eq, firstMinBelow_eq_bind,
    specPick_eq_firstMinList]
  cases hm : firstMinList tasks
      ((scanOrder cur).filter fun i => decide (readyNonIdle tasks i)) with
  | none => rfl
  | some j =>
    have hj : (tasks j).priority < USIZE_MAX :=
      lt_trans (hp j) (by norm_num [USIZE_MAX])
    simp [hj]

/-- On the configured table, successive selections starting from task 0
alternate between task 1 and task 2. -/
theorem pickSeq_alternates (e : Fin MAX_TASK → Nat) :
    ∀ k, pickSeq e (2 * k + 1) = 1 ∧ pickSeq e (2 * k + 2) = 2 := by
  have u1 : update_to_next_task (TASKS_init e) 1 = 2 := rfl
  have u2 : update_to_next_task (TASKS_init e) 2 = 1 := rfl
  intro k
  induction k with
  | zero =>
    constructor
    · show pickSeq e 1 = 1
      exact rfl
    · show update_to_next_task (TASKS_init e) (pickSeq e 1) = 2
      rw [show pickSeq e 1 = 1 from rfl]
      exact u1
  | succ n ihn =>
    have h1 : pickSeq e (2 * (n + 1) + 1) = 1 := by
      show update_to_next_task (TASKS_init e) (pickSeq e (2 * n + 2)) = 1
      rw [ihn.2]
      exact u2
    have h2 : pickSeq e (2 * (n + 1) + 2) = 2 := by
      show update_to_next_task (TASKS_init e) (pickSeq e (2 * (n + 1) + 1)) = 2
      rw [h1]
      exact u1
    exact ⟨h1, h2⟩

/-- Every selection after the start is task 1 or task 2. -/
theorem pickSeq_one_or_two (e : Fin MAX_TASK → Nat) (k : Nat) :
    pickSeq e (k + 1) = 1 ∨ pickSeq e (k + 1) = 2 := by
  rcases Nat.even_or_odd k with ⟨m, hm⟩ | ⟨m, hm⟩
  · have hk : k + 1 = 2 * m + 1 := by omega
    rw [hk]
    exact Or.inl (pickSeq_alternates e m).1
  · have hk : k + 1 = 2 * m + 2 := by omega
    rw [hk]
    exact Or.inr (pickSeq_alternates e m).2

/-- Shifts distribute over bitwise or. -/
theorem or_shiftRight (a b k : Nat) : (a ||| b) >>> k = (a >>> k) ||| (b >>> k) := by
  apply Nat.eq_of_testBit_eq
  intro i
  simp [Nat.testBit_lor, Nat.testBit_shiftRight]

/-- The two priority bytes programmed into SHPR3, for any prior contents. -/
theorem shpr3_bytes (v : Nat) :
    (shpr3_after v >>> 16) &&& 0xFF = 0xFF ∧ (shpr3_after v >>> 24) &&& 0xFF = 0xF0 := by
  have hlow : v &&& 0x0000FFFF < 2 ^ 16 := by
    have h := Nat.and_le_right (n := v) (m := 0x0000FFFF)
    omega
  unfold shpr3_after
  constructor
  · rw [or_shiftRight]
    have hx : (v &&& 0x0000FFFF) >>> 16 = 0 := by
      rw [Nat.shiftRight_eq_div_pow]
      exact Nat.div_eq_of_lt hlow
    rw [hx, Nat.zero_or]
    decide
  · rw [or_shiftRight]
    have hx : (v &&& 0x0000FFFF) >>> 24 = 0 := by
      rw [Nat.shiftRight_eq_div_pow]
      exact Nat.div_eq_of_lt (lt_trans hlow (by norm_num))
    rw [hx, Nat.zero_or]
    decide

/-! ## Claim theorems -/

/-- C1: In priority mode, `update_to_next_task`, starting from
`(current + 1) mod N` and scanning the `N − 1` non-idle slots, selects among
the READY non-idle tasks the one with the lowest priority value, breaking
ties in favor of the first such task encountered in scan order, and returns
0 (idle) if no non-idle task is READY (first conjunct: equality with the
spec's policy, for any table with `u8` priorities); in particular, with
priorities `[0, 3, 3, 4]` and all tasks READY, successive selections
alternate between task 1 and task 2 (second conjunct), and task 3 is never
selected (third conjunct). -/
theorem update_to_next_task_priority_policy (tasks : Fin MAX_TASK → Tcb) (cur : Nat)
    (hp : ∀ i, (tasks i).priority < 256) :
    update_to_next_task tasks cur = specPick tasks cur ∧
    (∀ (e : Fin MAX_TASK → Nat) (k : Nat),
      pickSeq e (2 * k + 1) = 1 ∧ pickSeq e (2 * k + 2) = 2) ∧
    (∀ (e : Fin MAX_TASK → Nat) (k : Nat), pickSeq e (k + 1) ≠ 3) := by
  refine ⟨pick_eq_spec tasks cur hp, fun e k => pickSeq_alternates e k, fun e k => ?_⟩
  rcases pickSeq_one_or_two e k with h | h <;> omega

/-- Witness for C1 at the configured table and `cur = 0`. -/
theorem update_to_next_task_priority_policy_witness :
    (∀ i, ((TASKS_init entry0) i).priority < 256) ∧
    update_to_next_task (TASKS_init entry0) 0 = specPick (TASKS_init entry0) 0 :=
  ⟨by decide, (update_to_next_task_priority_policy (TASKS_init entry0) 0 (by decide)).1⟩

/-- C9: after every call to `update_to_next_task`, the committed index lies
in `[0, MAX_TASK)`, and is either 0 (idle) or an index whose state is
`TASK_READY_STATE`; a BLOCKED non-idle task is never selected. -/
theorem update_to_next_task_invariant (tasks : Fin MAX_TASK → Tcb) (cur : Nat) :
    update_to_next_task tasks cur < MAX_TASK ∧
    (update_to_next_task tasks cur = 0 ∨
      ∃ h : update_to_next_task tasks cur < MAX_TASK,
        (tasks ⟨update_to_next_task tasks cur, h⟩).current_state = TASK_READY_STATE) := by
  rw [update_to_next_task, foldl_pickStep_eq]
  cases hm : firstMinBelow tasks USIZE_MAX (scanOrder cur) with
  | none => exact ⟨by norm_num [MAX_TASK], Or.inl rfl⟩
  | some j =>
    obtain ⟨hready, hmem⟩ := firstMinBelow_sound tasks (scanOrder cur) USIZE_MAX j hm
    refine ⟨j.isLt, Or.inr ⟨j.isLt, ?_⟩⟩
    simpa [Fin.eta] using hready.2

/-- C2: after `init_all_task_stacks` (`init_task_stack`), every task `i` has a
16-word synthetic frame written at the top of its stack region, from top
downward: xPSR = `0x01000000` at `top - 4`, PC = the task's entry address at
`top - 8`, LR = `0xFFFFFFFD` at `top - 12`, then five zero words (R12, R3,
R2, R1, R0) at `top - 16 … top - 32` and eight zero words (R11..R4) at
`top - 36 … top - 64`, and `TASKS[i].psp_value` equals the address of the
lowest word written, `top - 16·4`. -/
theorem init_task_stack_frame_layout (e : Fin MAX_TASK → Nat) (m0 : Nat → Nat)
    (i : Fin MAX_TASK) :
    ((init_task_stack (TASKS_init e) m0).1 i).psp_value
        = task_stack_start i.val - 16 * 4 ∧
    (init_task_stack (TASKS_init e) m0).2 (task_stack_start i.val - 4) = 0x01000000 ∧
    (init_task_stack (TASKS_init e) m0).2 (task_stack_start i.val - 8)
        = ((TASKS_init e) i).task_handler ∧
    (init_task_stack (TASKS_init e) m0).2 (task_stack_start i.val - 12) = 0xFFFFFFFD ∧
    (∀ k : Fin 5, (init_task_stack (TASKS_init e) m0).2
        (task_stack_start i.val - 16 - 4 * k.val) = 0) ∧
    (∀ k : Fin 8, (init_task_stack (TASKS_init e) m0).2
        (task_stack_start i.val - 36 - 4 * k.val) = 0) := by
  fin_cases i <;>
    exact ⟨rfl, rfl, rfl, rfl, fun k => by fin_cases k <;> exact rfl,
      fun k => by fin_cases k <;> exact rfl⟩

/-- C3 counterexample: the claim places LR = `0xFFFFFFFD` at
`psp_value + 12·4`, but the word there (for task 0, with concrete entry
addresses and zeroed memory) is 0 — the frame actually sits one word higher
(xPSR at `+15·4`, PC at `+14·4`, LR at `+13·4`). -/
theorem frame_offset_claim_counterexample :
    (init_task_stack (TASKS_init entry0) zmem).2
        (((init_task_stack (TASKS_init entry0) zmem).1 ⟨0, by decide⟩).psp_value + 12 * 4)
      = 0 ∧ (0 : Nat) ≠ 0xFFFFFFFD := by
  exact ⟨rfl, by decide⟩

/-- C3 amended: for every task `i` after `init_all_task_stacks`, reading the
word at `psp_value + 15·4` yields `0x01000000`, the word at `psp_value + 14·4`
yields the task's entry address, the word at `psp_value + 13·4` yields
`0xFFFFFFFD`, and the words at `psp_value + 0` through `psp_value + 12·4`
are 0. -/
theorem frame_offsets_from_psp (e : Fin MAX_TASK → Nat) (m0 : Nat → Nat)
    (i : Fin MAX_TASK) :
    (init_task_stack (TASKS_init e) m0).2
        (((init_task_stack (TASKS_init e) m0).1 i).psp_value + 15 * 4) = 0x01000000 ∧
    (init_task_stack (TASKS_init e) m0).2
        (((init_task_stack (TASKS_init e) m0).1 i).psp_value + 14 * 4)
        = ((TASKS_init e) i).task_handler ∧
    (init_task_stack (TASKS_init e) m0).2
        (((init_task_stack (TASKS_init e) m0).1 i).psp_value + 13 * 4) = 0xFFFFFFFD ∧
    (∀ k : Fin 13, (init_task_stack (TASKS_init e) m0).2
        (((init_task_stack (TASKS_init e) m0).1 i).psp_value + 4 * k.val) = 0) := by
  fin_cases i
  · have hp : ((init_task_stack (TASKS_init e) m0).1 ⟨0, by decide⟩).psp_value
        = 0x2001FFC0 := rfl
    rw [hp]
    exact ⟨rfl, rfl, rfl, fun k => by fin_cases k <;> exact rfl⟩
  · have hp : ((init_task_stack (TASKS_init e) m0).1 ⟨1, by decide⟩).psp_value
        = 0x2001FBC0 := rfl
    rw [hp]
    exact ⟨rfl, rfl, rfl, fun k => by fin_cases k <;> exact rfl⟩
  · have hp : ((init_task_stack (TASKS_init e) m0).1 ⟨2, by decide⟩).psp_value
        = 0x2001F7C0 := rfl
    rw [hp]
    exact ⟨rfl, rfl, rfl, fun k => by fin_cases k <;> exact rfl⟩
  · have hp : ((init_task_stack (TASKS_init e) m0).1 ⟨3, by decide⟩).psp_value
        = 0x2001F3C0 := rfl
    rw [hp]
    exact ⟨rfl, rfl, rfl, fun k => by fin_cases k <;> exact rfl⟩

/-- C4 counterexample: a reload value beyond 24 bits is silently bit-masked,
not reported as an error — with `interval_ms = 2000` and 16 MHz the tick
count is 32 000 000, the claimed reload `16·1000·2000 − 1 = 31 999 999`
exceeds `0xFFFFFF`, and the register is programmed with the masked value
15 222 783 instead. -/
theorem tick_reload_overflow_masked :
    (init_systic_interrupt_ms 2000 16).st_rvr = 15222783 ∧
    16 * 1000 * 2000 - 1 = 31999999 ∧ (15222783 : Nat) ≠ 31999999 := by
  exact ⟨by decide, by norm_num, by norm_num⟩

/-- C4 amended: tick initialization programs a reload value equal to
`(core_clock_mhz·1000·period_ms − 1) & 0xFFFFFF` — the 24-bit mask is applied
silently and no error is raised on overflow; whenever the value fits the
timer's 24-bit range the reload equals `core_clock_mhz·1000·period_ms − 1`;
in particular with `TICK_PERIOD_MS = 1` and `CORE_CLOCK_MHZ = 16` the reload
value is 15999. -/
theorem configure_interrupt_ticks_reload (interval_ms core_clk_mhz : Nat)
    (h1 : 1 ≤ (core_clk_mhz * 1000 * interval_ms) % 2 ^ 32) :
    (init_systic_interrupt_ms interval_ms core_clk_mhz).st_rvr
        = ((core_clk_mhz * 1000 * interval_ms) % 2 ^ 32 - 1) &&& SYSTICK_RVR_MAX ∧
    ((core_clk_mhz * 1000 * interval_ms) % 2 ^ 32 - 1 ≤ SYSTICK_RVR_MAX →
      (init_systic_interrupt_ms interval_ms core_clk_mhz).st_rvr
        = (core_clk_mhz * 1000 * interval_ms) % 2 ^ 32 - 1) ∧
    (init_systic_interrupt_ms 1 16).st_rvr = 15999 := by
  refine ⟨rfl, ?_, by decide⟩
  intro hfit
  show ((core_clk_mhz * 1000 * interval_ms) % 2 ^ 32 - 1) &&& SYSTICK_RVR_MAX = _
  have hmax : SYSTICK_RVR_MAX = 2 ^ 24 - 1 := rfl
  rw [hmax, Nat.and_pow_two_sub_one_eq_mod]
  
  have hlt : (core_clk_mhz * 1000 * interval_ms) % 2 ^ 32 - 1 < 2 ^ 24 := by
    rw [hmax] at hfit
    omega
  exact Nat.mod_eq_of_lt hlt

/-- Witness for C4 (amended) at 1 ms, 16 MHz. -/
theorem configure_interrupt_ticks_reload_witness :
    1 ≤ (16 * 1000 * 1) % 2 ^ 32 ∧ (init_systic_interrupt_ms 1 16).st_rvr = 15999 :=
  ⟨by norm_num, (configure_interrupt_ticks_reload 1 16 (by norm_num)).2.2⟩

/-- C5 counterexample: there is no round-robin mode — the only policy is the
priority scan.  Starting from task 0 with all tasks READY, the third
selection is task 1, not task 3 as the claimed order `1,2,3,0,…` requires,
and over 100 ticks task 3 is selected 0 times, not 25. -/
theorem round_robin_claim_counterexample :
    pickSeq entry0 3 = 1 ∧ (1 : Nat) ≠ 3 ∧
    ((List.range 100).map (fun k => pickSeq entry0 (k + 1))).count 3 = 0 ∧
    (0 : Nat) ≠ 25 := by
  exact ⟨by decide, by norm_num, by decide, by norm_num⟩

/-- C5 amended: the scheduler has a single, priority-based mode (there is no
selectable round-robin mode).  With `N = 4`, the configured priorities
`[0, 3, 3, 4]` and all tasks READY, starting from task 0, the successive
selections alternate 1, 2, 1, 2, …; every selection is task 1 or task 2, and
over 100 ticks task 1 and task 2 are each selected exactly 50 times while
task 0 and task 3 are never selected. -/
theorem priority_only_selection_sequence (e : Fin MAX_TASK → Nat) :
    (∀ k, pickSeq e (2 * k + 1) = 1 ∧ pickSeq e (2 * k + 2) = 2) ∧
    (∀ k, pickSeq e (k + 1) = 1 ∨ pickSeq e (k + 1) = 2) ∧
    ((List.range 100).map (fun k => pickSeq entry0 (k + 1))).count 1 = 50 ∧
    ((List.range 100).map (fun k => pickSeq entry0 (k + 1))).count 2 = 50 ∧
    ((List.range 100).map (fun k => pickSeq entry0 (k + 1))).count 0 = 0 ∧
    ((List.range 100).map (fun k => pickSeq entry0 (k + 1))).count 3 = 0 := by
  exact ⟨pickSeq_alternates e, pickSeq_one_or_two e,
    by decide, by decide, by decide, by decide⟩

/-- C6: after `scheduler_init` configures SHPR3, the PendSV priority byte
(bits 23:16, the byte at `0xE000_ED22`) is `0xFF` and the SysTick priority
byte (bits 31:24, the byte at `0xE000_ED23`) is `0xF0`, whatever the prior
register contents; hence the PendSV byte is numerically greater — PendSV is
lower priority than SysTick. -/
theorem pendsv_lower_priority_than_systick (e : Fin MAX_TASK → Nat)
    (shpr3₀ : Nat) (m0 : Nat → Nat) :
    ((scheduler_init e shpr3₀ m0).shpr3 >>> 16) &&& 0xFF = 0xFF ∧
    ((scheduler_init e shpr3₀ m0).shpr3 >>> 24) &&& 0xFF = 0xF0 ∧
    ((scheduler_init e shpr3₀ m0).shpr3 >>> 24) &&& 0xFF
      < ((scheduler_init e shpr3₀ m0).shpr3 >>> 16) &&& 0xFF := by
  have h := shpr3_bytes shpr3₀
  have hs : (scheduler_init e shpr3₀ m0).shpr3 = shpr3_after shpr3₀ := rfl
  rw [hs]
  exact ⟨h.1, h.2, by rw [h.1, h.2]; norm_num⟩

/-- C7: the `SysTick` exception handler only increments the global tick
counter (wrapping mod `2^32`) and pends PendSV; the task table, the current
task index and all task stack memory are untouched. -/
theorem systick_handler_frame (s : KState) :
    (sysTickException s).tasks = s.tasks ∧
    (sysTickException s).mem = s.mem ∧
    (sysTickException s).currentTaskIdx = s.currentTaskIdx ∧
    (sysTickException s).globalTickCount = (s.globalTickCount + 1) % 2 ^ 32 ∧
    (sysTickException s).icsrPendSVSet = true :=
  ⟨rfl, rfl, rfl, rfl, rfl⟩

/-- C8 counterexample: `scheduler_init` does *not* invoke `pick_next` — the
call to `update_to_next_task` is commented out.  It branches to the task at
the statically initialized `CURRENT_TASK_IDX = 1`, while `pick_next` invoked
from the all-READY boot table (current = 1) would have returned task 2. -/
theorem scheduler_init_no_pick_counterexample :
    (scheduler_init entry0 0 zmem).firstIdx = 1 ∧
    update_to_next_task (TASKS_init entry0) CURRENT_TASK_IDX_INIT = 2 ∧
    (1 : Nat) ≠ 2 := by
  exact ⟨rfl, by decide, by norm_num⟩

/-- C8 amended: the first task to run after scheduler start is the task at
the statically initialized `CURRENT_TASK_IDX = 1` (task 1) — `scheduler_init`
loads `TASKS[1]`'s handler and branches to it without invoking `pick_next`;
task 1 is READY in the boot table. -/
theorem scheduler_init_first_task (e : Fin MAX_TASK → Nat) (v : Nat) (m0 : Nat → Nat) :
    (scheduler_init e v m0).firstIdx = CURRENT_TASK_IDX_INIT ∧
    CURRENT_TASK_IDX_INIT = 1 ∧
    (scheduler_init e v m0).firstEntry = e ⟨1, by decide⟩ ∧
    ((scheduler_init e v m0).tasks ⟨1, by decide⟩).current_state = TASK_READY_STATE := by
  exact ⟨rfl, rfl, rfl, rfl⟩

/-- C10: for every 32-bit value `p`, `save_psp_value p` followed by
`get_psp_value` (with `CURRENT_TASK_IDX` unchanged) returns exactly `p`, and
`save_psp_value` only changes the `psp_value` field of
`TASKS[CURRENT_TASK_IDX]`: the current entry keeps all other fields, every
other table entry is unchanged, and the rest of the kernel state (current
index, tick count, ICSR, stack memory) is untouched. -/
theorem save_get_psp_roundtrip (s : KState) (p : Nat) (hp : p < 2 ^ 32) :
    get_psp_value (save_psp_value p s) = p ∧
    (save_psp_value p s).tasks s.currentTaskIdx
      = { s.tasks s.currentTaskIdx with psp_value := p } ∧
    (∀ j, j ≠ s.currentTaskIdx → (save_psp_value p s).tasks j = s.tasks j) ∧
    (save_psp_value p s).currentTaskIdx = s.currentTaskIdx ∧
    (save_psp_value p s).globalTickCount = s.globalTickCount ∧
    (save_psp_value p s).icsrPendSVSet = s.icsrPendSVSet ∧
    (save_psp_value p s).mem = s.mem := by
  refine ⟨?_, ?_, ?_, rfl, rfl, rfl, rfl⟩
  · unfold get_psp_value save_psp_value
    simp [Function.update_same]
  · unfold save_psp_value
    simp [Function.update_same]
  · intro j hj
    unfold save_psp_value
    simp [Function.update_noteq hj]

/-- Witness for C10 at a concrete state and `p = 0xCAFE`. -/
theorem save_get_psp_roundtrip_witness :
    (51966 : Nat) < 2 ^ 32 ∧ get_psp_value (save_psp_value 51966 state0) = 51966 :=
  ⟨by norm_num, (save_get_psp_roundtrip state0 51966 (by norm_num)).1⟩

end RustOS
